import Mathlib

/-!
Shallow embedding of the timeline-editor state core of `plugin.py`:
the Project data model (`MediaItem`, `Clip`, `Project`), the lookup
helpers, the preview resolver (`track_priority`, `_get_preview_image`'s
clip-selection logic) and the command processor `on_cmd`.

Modelling conventions:
* Python `int` is `Int` (arbitrary precision in both).
* Python `float` is modelled as an exact rational `ℚ`; `int(round(x))`
  becomes `pyRound` (round half to even, Python's `round`), `int(x)`
  on a number becomes `pyTrunc` (truncation toward zero).
* A JSON scalar appearing in a command payload is a `JVal`; arrays and
  objects are opaque markers (no command branch looks inside one, the
  branches only fail on them).
* An exception escaping `on_cmd` (e.g. `int(None)` raising TypeError)
  is `Except.error ()`; a normal return is `Except.ok` of the updated
  project.  The snapshot is compared at the `Project` level: `on_cmd`
  re-serializes the parsed project, so the string may be reformatted
  but the `Project` value is what the spec calls the snapshot.
* The ad-hoc random clip id `f"c_{abs(hash(os.urandom(8)))}"` generated
  by the ADD_CLIP branch is modelled as an oracle parameter `fresh`
  passed to `on_cmd`.
-/

/-- A scalar JSON value as it appears in a command payload field.
`arr` and `obj` stand for any array or object value: the command
processor never inspects their contents, it only fails on them. -/
inductive JVal
  | null
  | jbool (b : Bool)
  | num (q : ℚ)
  | str (s : String)
  | arr
  | obj
deriving DecidableEq, Repr

/-- Dataclass `MediaItem` of `plugin.py`. -/
structure MediaItem where
  id : String
  name : String
  path : String
  kind : String
  fps : Option ℚ := none
  frames : Option Int := none
  duration_s : Option ℚ := none
deriving DecidableEq, Repr

/-- Dataclass `Clip` of `plugin.py`. -/
structure Clip where
  id : String
  media_id : String
  track_id : String
  start_f : Int
  in_f : Int
  out_f : Int
  kind : String
deriving DecidableEq, Repr

/-- Dataclass `Project` of `plugin.py`. -/
structure Project where
  fps : ℚ
  px_per_frame : ℚ
  playhead_f : Int
  selected_clip_id : Option String
  media : List MediaItem
  clips : List Clip
deriving DecidableEq, Repr

/-- Python `int(x)` on a float modelled as `ℚ`: truncation toward zero. -/
def pyTrunc (q : ℚ) : Int := if 0 ≤ q then ⌊q⌋ else -⌊-q⌋

/-- Python `int(round(x))` on a float modelled as `ℚ`: round half to even
(Python 3 `round` uses banker's rounding). -/
def pyRound (q : ℚ) : Int :=
  let f : Int := ⌊q⌋
  let r : ℚ := q - (f : ℚ)
  if r < 1/2 then f
  else if 1/2 < r then f + 1
  else if f % 2 = 0 then f else f + 1

/-- Decimal value of a digit run; `none` when empty or a non-digit occurs. -/
def pyDigitsAux : List Char → Nat → Option Nat
  | [], acc => some acc
  | c :: cs, acc =>
    if c.isDigit then pyDigitsAux cs (10 * acc + (c.toNat - 48)) else none

/-- Decimal value of a nonempty digit run. -/
def pyDigits? (l : List Char) : Option Nat :=
  match l with
  | [] => none
  | _ => pyDigitsAux l 0

/-- Strip leading and trailing whitespace, as Python `str.strip()`. -/
def pyTrimChars (l : List Char) : List Char :=
  ((l.dropWhile Char.isWhitespace).reverse.dropWhile Char.isWhitespace).reverse

/-- Python `int(s)` over the characters of `s`: surrounding whitespace
stripped, one optional sign, then ASCII decimal digits.  `none` models a
raised ValueError.  (Digit-group underscores and non-ASCII digits,
accepted by Python, are not modelled; no string this plugin converts
uses them.) -/
def pyParseIntChars (l : List Char) : Option Int :=
  match pyTrimChars l with
  | '+' :: rest => (pyDigits? rest).map (fun n => (n : Int))
  | '-' :: rest => (pyDigits? rest).map (fun n => -(n : Int))
  | t => (pyDigits? t).map (fun n => (n : Int))

/-- Python `int(s)` on a string. -/
def pyParseInt (s : String) : Option Int := pyParseIntChars s.data

/-- `s.startswith(c)` for a single-character pattern (the only shape the
plugin uses: "V", "A"). -/
def strHead (s : String) (c : Char) : Bool :=
  match s.data with
  | [] => false
  | d :: _ => d == c

/-- Python `int(v)` applied to a JSON payload value.  `int(True) = 1`;
`int` of None, an array or an object raises TypeError, `int` of a
non-numeric string raises ValueError: both are `Except.error ()`. -/
def pyInt : JVal → Except Unit Int
  | .num q => .ok (pyTrunc q)
  | .jbool b => .ok (if b then 1 else 0)
  | .str s =>
    match pyParseInt s with
    | some n => .ok n
    | none => .error ()
  | _ => .error ()

/-- `cmd.get(key, default)` on the parsed command object. -/
def jget (fields : List (String × JVal)) (k : String) (d : JVal) : JVal :=
  match fields.find? (fun kv => kv.1 == k) with
  | some kv => kv.2
  | none => d

/-- Coerce a payload value to the dataclass field type `Optional[str]`:
JSON null gives `None`; a non-string, non-null value compares unequal
to every stored string id and lies outside the declared `Optional[str]`
type, so it is also mapped to `none`. -/
def jvalToOptStr : JVal → Option String
  | .str s => some s
  | _ => none

/-- `find_media` of `plugin.py`: first media item with the given id. -/
def find_media (p : Project) (media_id : String) : Option MediaItem :=
  p.media.find? (fun m => m.id == media_id)

/-- `find_media(p, cmd.get("media_id"))` with the raw payload value:
`m.id == media_id` is false for every non-string payload. -/
def find_media_j (p : Project) (v : JVal) : Option MediaItem :=
  match v with
  | .str s => find_media p s
  | _ => none

/-- `find_clip` of `plugin.py`: a falsy `clip_id` (None or the empty
string) short-circuits to None, otherwise first clip with that id. -/
def find_clip (p : Project) (clip_id : Option String) : Option Clip :=
  match clip_id with
  | none => none
  | some s => if s = "" then none else p.clips.find? (fun c => c.id == s)

/-- `clip_duration_frames` of `plugin.py`. -/
def clip_duration_frames (c : Clip) : Int := max 1 (c.out_f - c.in_f)

/-- `clip_covers_frame` of `plugin.py`. -/
def clip_covers_frame (c : Clip) (frame : Int) : Bool :=
  decide (c.start_f ≤ frame) && decide (frame < c.start_f + clip_duration_frames c)

/-- `track_priority` of `plugin.py`: numeric suffix of a "V" track id
(0 when `int(track_id[1:])` raises), -999 for any other track. -/
def track_priority (track_id : String) : Int :=
  match track_id.data with
  | 'V' :: rest => (pyParseIntChars rest).getD 0
  | _ => -999

/-- The candidate list of `_get_preview_image`: clips of kind video or
image whose frame range covers the playhead. -/
def preview_candidates (p : Project) : List Clip :=
  p.clips.filter (fun c =>
    (c.kind == "video" || c.kind == "image") && clip_covers_frame c p.playhead_f)

/-- Head of `candidates.sort(key=lambda c: track_priority(c.track_id),
reverse=True)`.  Python's sort is stable and `reverse=True` keeps the
original relative order of equal keys, so the head is the earliest
candidate of maximal priority: a later element replaces an earlier one
only when its priority is strictly greater. -/
def top_candidate : List Clip → Option Clip
  | [] => none
  | c :: cs =>
    match top_candidate cs with
    | none => some c
    | some d =>
      if track_priority c.track_id < track_priority d.track_id then some d else some c

/-- The clip whose frame `_get_preview_image` would display: the top
candidate under the playhead, `none` when there is no candidate (the
actual pixel decoding is an external collaborator). -/
def preview_top (p : Project) : Option Clip :=
  top_candidate (preview_candidates p)

/-- SET_PLAYHEAD branch of `on_cmd`. -/
def set_playhead_cmd (fields : List (String × JVal)) (p : Project) :
    Except Unit Project :=
  match pyInt (jget fields "frame" (.num 0)) with
  | .error e => .error e
  | .ok f => .ok { p with playhead_f := max 0 f }

/-- SELECT_CLIP branch of `on_cmd`: stores the requested id unvalidated. -/
def select_clip_cmd (fields : List (String × JVal)) (p : Project) :
    Except Unit Project :=
  .ok { p with selected_clip_id := jvalToOptStr (jget fields "clip_id" .null) }

/-- ADD_CLIP branch of `on_cmd`.  `fresh` is the generated clip id.
Field conversion order follows the source: `start_f` is converted (and
may raise) before the media lookup; `track_id.startswith` raises when
the payload's `track_id` is not a string and the media resolves. -/
def add_clip_cmd (fresh : String) (fields : List (String × JVal)) (p : Project) :
    Except Unit Project :=
  let mediaIdv := jget fields "media_id" .null
  let trackv := jget fields "track_id" (.str "V1")
  match pyInt (jget fields "start_f" (.num 0)) with
  | .error e => .error e
  | .ok s =>
  let start_f := max 0 s
  match find_media_j p mediaIdv with
  | none => .ok p
  | some m =>
    match trackv with
    | .str track_id =>
      if strHead track_id 'A' && m.kind != "audio" then .ok p
      else if strHead track_id 'V' && m.kind == "audio" then .ok p
      else
        let dur_f : Int :=
          match m.frames with
          | some fr =>
            if m.kind = "video" then min (max 1 fr) (pyRound (p.fps * 5))
            else max 1 fr
          | none => pyRound (p.fps * 2)
        let c : Clip :=
          { id := fresh, media_id := m.id, track_id := track_id,
            start_f := start_f, in_f := 0, out_f := dur_f, kind := m.kind }
        .ok { p with clips := p.clips ++ [c], selected_clip_id := some fresh }
    | _ => .error ()

/-- The per-clip update of the MOVE_CLIP loop body: position always set,
track only when the target track's category matches the clip's kind. -/
def move_apply (c : Clip) (ns : Int) (nt : JVal) : Clip :=
  let c1 := { c with start_f := ns }
  match nt with
  | .str t =>
    if t ≠ "" then
      if strHead t 'V' && (c1.kind == "video" || c1.kind == "image") then
        { c1 with track_id := t }
      else if strHead t 'A' && c1.kind == "audio" then
        { c1 with track_id := t }
      else c1
    else c1
  | _ => c1

/-- The MOVE_CLIP loop: update the first clip with the given id (the
Python loop breaks after the first match). -/
def move_update (cid : String) (ns : Int) (nt : JVal) : List Clip → List Clip
  | [] => []
  | c :: cs =>
    if c.id = cid then move_apply c ns nt :: cs
    else c :: move_update cid ns nt cs

/-- MOVE_CLIP branch of `on_cmd`.  A non-string `clip_id` payload never
equals any clip's id, so the loop changes nothing. -/
def move_clip_cmd (fields : List (String × JVal)) (p : Project) :
    Except Unit Project :=
  let cidv := jget fields "clip_id" .null
  match pyInt (jget fields "start_f" (.num 0)) with
  | .error e => .error e
  | .ok s =>
  let ns := max 0 s
  let nt := jget fields "track_id" .null
  match cidv with
  | .str cid => .ok { p with clips := move_update cid ns nt p.clips }
  | _ => .ok p

/-- RAZOR_CUT branch of `on_cmd`: clamp the offset into `[1, dur-1]`,
truncate the target in place, create the second clip with id
`target.id ++ "_b"`, move both to the end of the list, select the first. -/
def razor_cut_cmd (fields : List (String × JVal)) (p : Project) :
    Except Unit Project :=
  let cidv := jget fields "clip_id" .null
  match pyInt (jget fields "cut_offset_f" (.num 0)) with
  | .error e => .error e
  | .ok cut0 =>
  match find_clip p (jvalToOptStr cidv) with
  | none => .ok p
  | some target =>
    let dur := clip_duration_frames target
    let cut := max 1 (min (dur - 1) cut0)
    let second : Clip :=
      { id := target.id ++ "_b", media_id := target.media_id,
        track_id := target.track_id, start_f := target.start_f + cut,
        in_f := target.in_f + cut, out_f := target.out_f, kind := target.kind }
    let first : Clip := { target with out_f := target.in_f + cut }
    .ok { p with
          clips := (p.clips.filter (fun c => c.id != target.id)) ++ [first, second],
          selected_clip_id := some target.id }

/-- The raw command string as `on_cmd` receives it: empty (falsy),
JSON that fails to parse, JSON that parses to a non-object (on which
`cmd.get` raises AttributeError), or a parsed object. -/
inductive RawCmd
  | empty
  | unparseable
  | nonObject
  | msg (fields : List (String × JVal))
deriving DecidableEq, Repr

/-- `on_cmd` of `plugin.py`, restricted to its effect on the Project
snapshot.  The SCREENSHOT branch only performs external I/O (tempfile,
image save) and leaves the project unchanged.  There is no branch for
any other command type: an unrecognized `type` falls through every
`elif` and the parsed project is returned unchanged. -/
def on_cmd (fresh : String) (raw : RawCmd) (p : Project) : Except Unit Project :=
  match raw with
  | .empty => .ok p
  | .unparseable => .ok p
  | .nonObject => .error ()
  | .msg fields =>
    match jget fields "type" .null with
    | .str t =>
      if t = "SET_PLAYHEAD" then set_playhead_cmd fields p
      else if t = "SCREENSHOT" then .ok p
      else if t = "SELECT_CLIP" then select_clip_cmd fields p
      else if t = "ADD_CLIP" then add_clip_cmd fresh fields p
      else if t = "MOVE_CLIP" then move_clip_cmd fields p
      else if t = "RAZOR_CUT" then razor_cut_cmd fields p
      else .ok p
    | _ => .ok p

/-- Ids of the clips of a project, in list order. -/
def clip_ids (p : Project) : List String := p.clips.map (fun c => c.id)

/-- The selection invariant of the spec: `selectedClipId`, if set,
names an existing clip. -/
def sel_invariant (p : Project) : Prop :=
  ∀ s, p.selected_clip_id = some s → ∃ c ∈ p.clips, c.id = s

deriving instance DecidableEq for Except

/-! Shared evaluation and inversion lemmas. -/

theorem pyTrunc_intCast (n : Int) : pyTrunc ((n : ℚ)) = n := by
  unfold pyTrunc
  split
  · simp
  · rw [← Int.cast_neg, Int.floor_intCast]
    omega

theorem pyRound_intCast (n : Int) : pyRound ((n : ℚ)) = n := by
  simp [pyRound]

theorem pyInt_intCast (n : Int) : pyInt (.num ((n : ℚ))) = .ok n := by
  simp [pyInt, pyTrunc_intCast]

/-- `find?` by id returns the member itself when ids are unique. -/
theorem find_first_by_id (l : List Clip) (c : Clip) (hmem : c ∈ l)
    (hnd : (l.map (fun d => d.id)).Nodup) :
    l.find? (fun d => d.id == c.id) = some c := by
  induction l with
  | nil => simp at hmem
  | cons a tl ih =>
    rcases List.mem_cons.mp hmem with h | h
    · subst h
      simp [List.find?]
    · simp only [List.map_cons, List.nodup_cons] at hnd
      have hne : a.id ≠ c.id := by
        intro he
        exact hnd.1 (he ▸ (List.mem_map.mpr ⟨c, h, rfl⟩))
      rw [List.find?_cons_of_neg _ (by simpa using hne)]
      exact ih h hnd.2

theorem move_apply_id (c : Clip) (ns : Int) (nt : JVal) :
    (move_apply c ns nt).id = c.id := by
  cases nt with
  | str t =>
    simp only [move_apply]
    split
    · split
      · rfl
      · split <;> rfl
    · rfl
  | null => rfl
  | jbool b => rfl
  | num q => rfl
  | arr => rfl
  | obj => rfl

theorem move_update_map_id (cid : String) (ns : Int) (nt : JVal) (l : List Clip) :
    (move_update cid ns nt l).map (fun c => c.id) = l.map (fun c => c.id) := by
  induction l with
  | nil => rfl
  | cons a tl ih =>
    unfold move_update
    split
    · simp [move_apply_id]
    · simp [ih]

theorem move_update_split (cid : String) (ns : Int) (nt : JVal)
    (pre : List Clip) (c : Clip) (post : List Clip)
    (hpre : ∀ d ∈ pre, d.id ≠ cid) (hc : c.id = cid) :
    move_update cid ns nt (pre ++ c :: post) = pre ++ move_apply c ns nt :: post := by
  induction pre with
  | nil => simp [move_update, hc]
  | cons a tl ih =>
    have ha : a.id ≠ cid := hpre a (List.mem_cons_self a tl)
    simp only [List.cons_append, move_update, if_neg ha, List.append_eq]
    rw [ih (fun d hd => hpre d (List.mem_cons_of_mem a hd))]

theorem filter_map_id (l : List Clip) (s : String) :
    (l.filter (fun d => d.id != s)).map (fun d => d.id) =
      (l.map (fun d => d.id)).filter (fun x => x != s) := by
  induction l with
  | nil => rfl
  | cons a tl ih =>
    simp only [List.filter_cons, List.map_cons]
    by_cases h : a.id = s <;> simp [h, ih]

/-- When SET_PLAYHEAD succeeds it only moves the playhead. -/
theorem set_playhead_ok {fields : List (String × JVal)} {p p' : Project}
    (h : set_playhead_cmd fields p = .ok p') :
    p'.selected_clip_id = p.selected_clip_id ∧ p'.clips = p.clips := by
  unfold set_playhead_cmd at h
  rcases hpi : pyInt (jget fields "frame" (.num 0)) with e | f <;> rw [hpi] at h
  · cases h
  · cases h
    exact ⟨rfl, rfl⟩

/-- When ADD_CLIP succeeds it either rejects (project unchanged) or
appends one clip carrying the generated id and selects it. -/
theorem add_clip_ok {fresh : String} {fields : List (String × JVal)} {p p' : Project}
    (h : add_clip_cmd fresh fields p = .ok p') :
    p' = p ∨ ∃ c : Clip, c.id = fresh ∧ p'.clips = p.clips ++ [c] ∧
      p'.selected_clip_id = some fresh := by
  unfold add_clip_cmd at h
  dsimp only at h
  split at h
  · cases h
  · split at h
    · cases h
      exact Or.inl rfl
    · split at h
      · split at h
        · cases h
          exact Or.inl rfl
        · split at h
          · cases h
            exact Or.inl rfl
          · cases h
            exact Or.inr ⟨_, rfl, rfl, rfl⟩
      · cases h

/-- When MOVE_CLIP succeeds the selection is unchanged and the clip ids
are unchanged position by position. -/
theorem move_clip_ok {fields : List (String × JVal)} {p p' : Project}
    (h : move_clip_cmd fields p = .ok p') :
    p'.selected_clip_id = p.selected_clip_id ∧
      p'.clips.map (fun c => c.id) = p.clips.map (fun c => c.id) := by
  unfold move_clip_cmd at h
  dsimp only at h
  split at h
  · cases h
  · split at h
    · cases h
      exact ⟨rfl, move_update_map_id _ _ _ _⟩
    · cases h
      exact ⟨rfl, rfl⟩

/-- When RAZOR_CUT succeeds it either rejects (project unchanged) or
replaces the target clip by its two halves and selects the first. -/
theorem razor_cut_ok {fields : List (String × JVal)} {p p' : Project}
    (h : razor_cut_cmd fields p = .ok p') :
    p' = p ∨ ∃ (t : Clip) (cut : Int), t ∈ p.clips ∧
      p'.selected_clip_id = some t.id ∧
      p'.clips = p.clips.filter (fun d => d.id != t.id) ++
        [{ t with out_f := t.in_f + cut },
         { id := t.id ++ "_b", media_id := t.media_id, track_id := t.track_id,
           start_f := t.start_f + cut, in_f := t.in_f + cut, out_f := t.out_f,
           kind := t.kind }] := by
  unfold razor_cut_cmd at h
  dsimp only at h
  split at h
  · cases h
  · split at h
    · cases h
      exact Or.inl rfl
    · rename_i target hfc
      cases h
      refine Or.inr ⟨target, _, ?_, rfl, rfl⟩
      unfold find_clip at hfc
      cases hjv : jvalToOptStr (jget fields "clip_id" .null) with
      | none =>
        rw [hjv] at hfc
        cases hfc
      | some s =>
        rw [hjv] at hfc
        dsimp only at hfc
        by_cases hse : s = ""
        · rw [if_pos hse] at hfc
          cases hfc
        · rw [if_neg hse] at hfc
          exact List.mem_of_find?_eq_some hfc

/-! Concrete fixtures (the §8 scenario of the spec: fps 25, a 250-frame
video imported, one clip `[0,125)` on "V1"). -/

/-- A video media item with a known 250-frame count at 25 fps. -/
def mVid : MediaItem :=
  { id := "m1", name := "a.mp4", path := "/a.mp4", kind := "video",
    fps := some 25, frames := some 250, duration_s := some 10 }

/-- An audio media item. -/
def mAud : MediaItem :=
  { id := "m2", name := "b.wav", path := "/b.wav", kind := "audio",
    duration_s := some 3, frames := some 75 }

/-- The clip produced by adding `mVid` to "V1" at frame 0. -/
def cVid : Clip :=
  { id := "c1", media_id := "m1", track_id := "V1",
    start_f := 0, in_f := 0, out_f := 125, kind := "video" }

/-- Project with `cVid` on the timeline and selected. -/
def pBase : Project :=
  { fps := 25, px_per_frame := 2, playhead_f := 0,
    selected_clip_id := some "c1", media := [mVid, mAud], clips := [cVid] }

/-- C1 counterexample: in `pBase` the selected clip "c1" exists, yet
`on_cmd` on DELETE_SELECTED returns the project unchanged: the clip is
not removed and the selection is not cleared. -/
theorem C1_counterexample :
    on_cmd "x" (.msg [("type", .str "DELETE_SELECTED")]) pBase = .ok pBase ∧
    pBase.selected_clip_id = some "c1" ∧ (∃ c ∈ pBase.clips, c.id = "c1") := by
  decide

/-- C1 (amended): "DELETE_SELECTED" is not a recognized command type of
`on_cmd` (the branch does not exist in the source); for every project,
selected clip or not, the command is a silent no-op that returns the
project unchanged. -/
theorem C1_delete_selected_noop (fresh : String) (p : Project) :
    on_cmd fresh (.msg [("type", .str "DELETE_SELECTED")]) p = .ok p := by
  simp [on_cmd, jget]

/-- C2 counterexample: `on_cmd` on SET_FPS 30 leaves `pBase` unchanged
with fps 25: the project fps is not set to the (positive) given value. -/
theorem C2_counterexample :
    on_cmd "x" (.msg [("type", .str "SET_FPS"), ("fps", .num 30)]) pBase = .ok pBase ∧
    pBase.fps = 25 ∧ (25 : ℚ) ≠ 30 := by
  decide

/-- C2 (amended): "SET_FPS" is not a recognized command type of `on_cmd`
(the branch does not exist in the source); for every project and every
requested fps value the command is a no-op: the project, in particular
its fps and every clip's startFrame/inFrame/outFrame, is unchanged, and
the requested value is never stored. -/
theorem C2_set_fps_noop (fresh : String) (p : Project) (q : ℚ) :
    on_cmd fresh (.msg [("type", .str "SET_FPS"), ("fps", .num q)]) p = .ok p := by
  simp [on_cmd, jget]

/-- C8 counterexample: a recognized command type with a payload field
that cannot be interpreted — SET_PLAYHEAD whose "frame" is JSON null —
makes `on_cmd` raise (the `int(...)` conversions are outside the
`try/except` that only guards `json.loads`), instead of silently
returning the prior snapshot. -/
theorem C8_counterexample :
    on_cmd "x" (.msg [("type", .str "SET_PLAYHEAD"), ("frame", .null)]) pBase =
      .error () := by
  decide

/-- C8 (amended): an empty command string, an unparseable command string,
and a parsed command whose type is unknown (any non-string type value,
or any string other than the six recognized names) are silent no-ops
returning the prior project unchanged; but a recognized command type
whose payload fields cannot be interpreted (e.g. a non-numeric frame)
raises an uncaught error instead of a silent no-op. -/
theorem C8_malformed_commands (fresh : String) (p : Project)
    (fields : List (String × JVal)) (v : JVal)
    (hv : jget fields "type" .null = v)
    (hunknown : ∀ t : String, v = .str t →
      t ≠ "SET_PLAYHEAD" ∧ t ≠ "SCREENSHOT" ∧ t ≠ "SELECT_CLIP" ∧
      t ≠ "ADD_CLIP" ∧ t ≠ "MOVE_CLIP" ∧ t ≠ "RAZOR_CUT") :
    on_cmd fresh .empty p = .ok p ∧
    on_cmd fresh .unparseable p = .ok p ∧
    on_cmd fresh (.msg fields) p = .ok p := by
  refine ⟨rfl, rfl, ?_⟩
  unfold on_cmd
  dsimp only
  rw [hv]
  cases v with
  | str t =>
    obtain ⟨h1, h2, h3, h4, h5, h6⟩ := hunknown t rfl
    dsimp only
    rw [if_neg h1, if_neg h2, if_neg h3, if_neg h4, if_neg h5, if_neg h6]
  | null => rfl
  | jbool b => rfl
  | num q => rfl
  | arr => rfl
  | obj => rfl

/-- C8 witness: the amended theorem applied to the concrete unknown
command type "TRANSMOGRIFY" on `pBase`. -/
theorem C8_witness :
    on_cmd "x" RawCmd.empty pBase = .ok pBase ∧
    on_cmd "x" RawCmd.unparseable pBase = .ok pBase ∧
    on_cmd "x" (.msg [("type", .str "TRANSMOGRIFY")]) pBase = .ok pBase :=
  C8_malformed_commands "x" pBase [("type", .str "TRANSMOGRIFY")]
    (.str "TRANSMOGRIFY") (by decide)
    (fun t ht => by
      cases ht
      exact ⟨by decide, by decide, by decide, by decide, by decide, by decide⟩)

/-- Membership of an id among a clip list, through the id projection. -/
theorem exists_id_iff_mem_map (l : List Clip) (s : String) :
    (∃ c ∈ l, c.id = s) ↔ s ∈ l.map (fun c => c.id) := by
  simp [List.mem_map]

/-- The selection invariant transfers along equal selection and equal
id projections. -/
theorem sel_invariant_of_eq {p p' : Project} (hinv : sel_invariant p)
    (hsel : p'.selected_clip_id = p.selected_clip_id)
    (hmap : p'.clips.map (fun c => c.id) = p.clips.map (fun c => c.id)) :
    sel_invariant p' := by
  intro s hs
  rw [hsel] at hs
  have hex := hinv s hs
  rw [exists_id_iff_mem_map] at hex ⊢
  rw [hmap]
  exact hex

/-- C9 counterexample: SELECT_CLIP stores the requested id without any
validation; selecting the nonexistent id "ghost" on `pBase` (which
satisfies the invariant) yields a project whose selectedClipId names no
clip. -/
theorem C9_counterexample :
    on_cmd "x" (.msg [("type", .str "SELECT_CLIP"), ("clip_id", .str "ghost")]) pBase =
      .ok { pBase with selected_clip_id := some "ghost" } ∧
    sel_invariant pBase ∧
    ¬ sel_invariant { pBase with selected_clip_id := some "ghost" } := by
  refine ⟨by decide, ?_, ?_⟩
  · intro s hs
    cases hs
    exact ⟨cVid, by decide, by decide⟩
  · intro h
    obtain ⟨c, hc, hid⟩ := h "ghost" rfl
    have hc' : c = cVid := by simpa [pBase] using hc
    subst hc'
    exact absurd hid (by decide)

/-- C9 (amended): every command other than SELECT_CLIP preserves the
invariant that selectedClipId, if set, names an existing clip (ADD_CLIP
selects the clip it appends, RAZOR_CUT selects the surviving first
half); SELECT_CLIP stores the requested id unvalidated, so it preserves
the invariant only when the requested id actually names an existing
clip. -/
theorem C9_selection_invariant :
    (∀ (fresh : String) (fields : List (String × JVal)) (p p' : Project),
       sel_invariant p →
       jget fields "type" .null ≠ .str "SELECT_CLIP" →
       on_cmd fresh (.msg fields) p = .ok p' →
       sel_invariant p') ∧
    (∀ (fresh : String) (fields : List (String × JVal)) (p p' : Project) (s : String),
       jget fields "type" .null = .str "SELECT_CLIP" →
       jget fields "clip_id" .null = .str s →
       (∃ c ∈ p.clips, c.id = s) →
       on_cmd fresh (.msg fields) p = .ok p' →
       sel_invariant p') := by
  constructor
  · intro fresh fields p p' hinv hne h
    unfold on_cmd at h
    dsimp only at h
    cases hjt : jget fields "type" .null with
    | str t =>
      rw [hjt] at h
      dsimp only at h
      by_cases h1 : t = "SET_PLAYHEAD"
      · rw [if_pos h1] at h
        obtain ⟨hsel, hclips⟩ := set_playhead_ok h
        exact sel_invariant_of_eq hinv hsel (by rw [hclips])
      · rw [if_neg h1] at h
        by_cases h2 : t = "SCREENSHOT"
        · rw [if_pos h2] at h
          cases h
          exact hinv
        · rw [if_neg h2] at h
          by_cases h3 : t = "SELECT_CLIP"
          · exact absurd (h3 ▸ hjt) hne
          · rw [if_neg h3] at h
            by_cases h4 : t = "ADD_CLIP"
            · rw [if_pos h4] at h
              rcases add_clip_ok h with he | ⟨c, hcid, hclips, hsel⟩
              · exact he ▸ hinv
              · intro s hs
                rw [hsel] at hs
                cases hs
                refine ⟨c, ?_, hcid⟩
                rw [hclips]
                exact List.mem_append_right _ (by simp)
            · rw [if_neg h4] at h
              by_cases h5 : t = "MOVE_CLIP"
              · rw [if_pos h5] at h
                obtain ⟨hsel, hmap⟩ := move_clip_ok h
                exact sel_invariant_of_eq hinv hsel hmap
              · rw [if_neg h5] at h
                by_cases h6 : t = "RAZOR_CUT"
                · rw [if_pos h6] at h
                  rcases razor_cut_ok h with he | ⟨tc, cut, hmem, hsel, hclips⟩
                  · exact he ▸ hinv
                  · intro s hs
                    rw [hsel] at hs
                    cases hs
                    refine ⟨{ tc with out_f := tc.in_f + cut }, ?_, rfl⟩
                    rw [hclips]
                    exact List.mem_append_right _ (by simp)
                · rw [if_neg h6] at h
                  cases h
                  exact hinv
    | null =>
      rw [hjt] at h
      cases h
      exact hinv
    | jbool b =>
      rw [hjt] at h
      cases h
      exact hinv
    | num q =>
      rw [hjt] at h
      cases h
      exact hinv
    | arr =>
      rw [hjt] at h
      cases h
      exact hinv
    | obj =>
      rw [hjt] at h
      cases h
      exact hinv
  · intro fresh fields p p' s hjt hcid hex h
    unfold on_cmd at h
    dsimp only at h
    rw [hjt] at h
    dsimp only at h
    rw [if_neg (by decide : ¬("SELECT_CLIP" : String) = "SET_PLAYHEAD"),
        if_neg (by decide : ¬("SELECT_CLIP" : String) = "SCREENSHOT"),
        if_pos rfl] at h
    unfold select_clip_cmd at h
    rw [hcid] at h
    cases h
    intro s' hs'
    cases hs'
    exact hex

/-- C9 witness: SELECT_CLIP with the id of the existing clip "c1"
preserves the invariant on `pBase`. -/
theorem C9_witness :
    sel_invariant { pBase with selected_clip_id := some "c1" } :=
  C9_selection_invariant.2 "x"
    [("type", .str "SELECT_CLIP"), ("clip_id", .str "c1")] pBase
    { pBase with selected_clip_id := some "c1" } "c1"
    (by decide) (by decide) ⟨cVid, by decide, by decide⟩ (by decide)

/-- Appending the "_b" suffix always changes a string (length grows). -/
theorem ne_append_b (s : String) : s ≠ s ++ "_b" := by
  intro he
  have hl := congrArg String.length he
  rw [String.length_append] at hl
  have h2 : ("_b" : String).length = 2 := rfl
  omega

/-- A 2-frame clip "c1", used to razor-cut next to an existing "c1_b". -/
def cShort : Clip :=
  { id := "c1", media_id := "m1", track_id := "V1",
    start_f := 0, in_f := 0, out_f := 2, kind := "video" }

/-- A clip that already carries the id "c1_b". -/
def cTaken : Clip :=
  { id := "c1_b", media_id := "m1", track_id := "V1",
    start_f := 10, in_f := 50, out_f := 60, kind := "video" }

/-- Project with distinct clip ids "c1" and "c1_b". -/
def pDup : Project :=
  { fps := 25, px_per_frame := 2, playhead_f := 0,
    selected_clip_id := some "c1", media := [mVid], clips := [cShort, cTaken] }

/-- C10 counterexample: `pDup` has distinct clip ids "c1" and "c1_b"
(the state a first razor cut of "c1" leaves behind), yet RAZOR_CUT of
"c1" creates a second clip whose id `"c1" ++ "_b"` collides with the
existing "c1_b": the resulting id list ["c1_b", "c1", "c1_b"] has a
duplicate. -/
theorem C10_counterexample :
    (clip_ids pDup).Nodup ∧
    on_cmd "x" (.msg [("type", .str "RAZOR_CUT"), ("clip_id", .str "c1"),
                      ("cut_offset_f", .num 1)]) pDup =
      .ok { pDup with
            clips := [cTaken, { cShort with out_f := 1 },
                      { id := "c1_b", media_id := "m1", track_id := "V1",
                        start_f := 1, in_f := 1, out_f := 2, kind := "video" }],
            selected_clip_id := some "c1" } ∧
    ¬ ([cTaken, { cShort with out_f := 1 },
        { id := "c1_b", media_id := "m1", track_id := "V1",
          start_f := 1, in_f := 1, out_f := 2, kind := "video" }].map
          (fun c => c.id)).Nodup := by
  decide

/-- C10 (amended): clip-id uniqueness is preserved by every command
provided the id generated for ADD_CLIP is fresh and no clip's id with
"_b" appended is already taken; without the latter proviso RAZOR_CUT
violates it (its second clip reuses firstClipId ++ "_b", so cutting the
same clip twice collides). -/
theorem C10_unique_ids (fresh : String) (raw : RawCmd) (p p' : Project)
    (hnd : (clip_ids p).Nodup)
    (hfresh : fresh ∉ clip_ids p)
    (hsuffix : ∀ c ∈ p.clips, (c.id ++ "_b") ∉ clip_ids p)
    (h : on_cmd fresh raw p = .ok p') :
    (clip_ids p').Nodup := by
  cases raw with
  | empty =>
    cases h
    exact hnd
  | unparseable =>
    cases h
    exact hnd
  | nonObject => cases h
  | msg fields =>
    unfold on_cmd at h
    dsimp only at h
    cases hjt : jget fields "type" .null with
    | str t =>
      rw [hjt] at h
      dsimp only at h
      by_cases h1 : t = "SET_PLAYHEAD"
      · rw [if_pos h1] at h
        obtain ⟨_, hclips⟩ := set_playhead_ok h
        unfold clip_ids
        rw [hclips]
        exact hnd
      · rw [if_neg h1] at h
        by_cases h2 : t = "SCREENSHOT"
        · rw [if_pos h2] at h
          cases h
          exact hnd
        · rw [if_neg h2] at h
          by_cases h3 : t = "SELECT_CLIP"
          · rw [if_pos h3] at h
            unfold select_clip_cmd at h
            cases h
            exact hnd
          · rw [if_neg h3] at h
            by_cases h4 : t = "ADD_CLIP"
            · rw [if_pos h4] at h
              rcases add_clip_ok h with he | ⟨c, hcid, hclips, _⟩
              · rw [he]
                exact hnd
              · unfold clip_ids
                rw [hclips, List.map_append]
                refine List.Nodup.append hnd (by simp) ?_
                intro a ha hb
                simp only [List.map_cons, List.map_nil, List.mem_singleton] at hb
                rw [hb, hcid] at ha
                exact hfresh ha
            · rw [if_neg h4] at h
              by_cases h5 : t = "MOVE_CLIP"
              · rw [if_pos h5] at h
                obtain ⟨_, hmap⟩ := move_clip_ok h
                unfold clip_ids
                rw [hmap]
                exact hnd
              · rw [if_neg h5] at h
                by_cases h6 : t = "RAZOR_CUT"
                · rw [if_pos h6] at h
                  rcases razor_cut_ok h with he | ⟨tc, cut, hmem, _, hclips⟩
                  · rw [he]
                    exact hnd
                  · unfold clip_ids
                    rw [hclips, List.map_append, filter_map_id]
                    have hidsnd : ([{ tc with out_f := tc.in_f + cut },
                        { id := tc.id ++ "_b", media_id := tc.media_id,
                          track_id := tc.track_id, start_f := tc.start_f + cut,
                          in_f := tc.in_f + cut, out_f := tc.out_f,
                          kind := tc.kind }].map (fun c => c.id)) =
                        [tc.id, tc.id ++ "_b"] := rfl
                    rw [hidsnd]
                    refine List.Nodup.append (List.Nodup.filter _ hnd) ?_ ?_
                    · simp only [List.nodup_cons, List.mem_singleton,
                        List.nodup_singleton, and_true]
                      exact ⟨ne_append_b tc.id, by simp⟩
                    · intro a ha hb
                      obtain ⟨hamem, hane⟩ := List.mem_filter.mp ha
                      rcases List.mem_cons.mp hb with hb1 | hb2
                      · rw [hb1] at hane
                        simp at hane
                      · rw [List.mem_singleton] at hb2
                        rw [hb2] at hamem
                        exact hsuffix tc hmem hamem
                · rw [if_neg h6] at h
                  cases h
                  exact hnd
    | null =>
      rw [hjt] at h
      cases h
      exact hnd
    | jbool b =>
      rw [hjt] at h
      cases h
      exact hnd
    | num q =>
      rw [hjt] at h
      cases h
      exact hnd
    | arr =>
      rw [hjt] at h
      cases h
      exact hnd
    | obj =>
      rw [hjt] at h
      cases h
      exact hnd

/-- C10 witness: cutting `cVid` in `pBase` (no clip named "c1_b" exists
there and "n9" is fresh) keeps the clip ids unique. -/
theorem C10_witness :
    (clip_ids { pBase with
        clips := [{ cVid with out_f := 50 },
                  { id := "c1_b", media_id := "m1", track_id := "V1",
                    start_f := 50, in_f := 50, out_f := 125, kind := "video" }],
        selected_clip_id := some "c1" }).Nodup :=
  C10_unique_ids "n9"
    (.msg [("type", .str "RAZOR_CUT"), ("clip_id", .str "c1"),
           ("cut_offset_f", .num 50)]) pBase
    { pBase with
      clips := [{ cVid with out_f := 50 },
                { id := "c1_b", media_id := "m1", track_id := "V1",
                  start_f := 50, in_f := 50, out_f := 125, kind := "video" }],
      selected_clip_id := some "c1" }
    (by decide) (by decide) (by decide) (by decide)

/-- Filtering out the one clip with a given id (ids unique) removes
exactly one element. -/
theorem filter_ne_id_length (l : List Clip) (c : Clip) (hmem : c ∈ l)
    (hnd : (l.map (fun d => d.id)).Nodup) :
    (l.filter (fun d => d.id != c.id)).length + 1 = l.length := by
  induction l with
  | nil => cases hmem
  | cons a tl ih =>
    simp only [List.map_cons, List.nodup_cons] at hnd
    rcases List.mem_cons.mp hmem with rfl | hm
    · have htl : tl.filter (fun d => d.id != c.id) = tl := by
        apply List.filter_eq_self.mpr
        intro d hd
        simp only [bne_iff_ne, ne_eq, decide_eq_true_eq]
        intro he
        exact hnd.1 (List.mem_map.mpr ⟨d, hd, he⟩)
      simp [List.filter_cons, htl]
    · have ha : a.id ≠ c.id := fun he => hnd.1 (he ▸ List.mem_map.mpr ⟨c, hm, rfl⟩)
      have hih := ih hm hnd.2
      have hb : (a.id != c.id) = true := by simpa using ha
      simp only [List.filter_cons, hb, if_true, List.length_cons]
      omega

/-- C3: for a clip of duration `D = out_f - in_f` and an offset in
`[1, D-1]`, RAZOR_CUT replaces exactly the target by two clips: the
first keeps id, startFrame and inFrame and is selected; durations sum
to D; the timeline ranges are contiguous and cover the original range;
the source ranges partition `[in_f, out_f)` with no gap or overlap. -/
theorem C3_razor_cut_partition (fresh : String) (p : Project) (c : Clip)
    (off D : Int)
    (hmem : c ∈ p.clips)
    (hnd : (clip_ids p).Nodup)
    (hid : c.id ≠ "")
    (hD : D = c.out_f - c.in_f)
    (hlo : 1 ≤ off) (hhi : off ≤ D - 1) :
    ∃ first second : Clip,
      on_cmd fresh (.msg [("type", .str "RAZOR_CUT"), ("clip_id", .str c.id),
                          ("cut_offset_f", .num ((off : Int) : ℚ))]) p =
        .ok { p with
              clips := p.clips.filter (fun d => d.id != c.id) ++ [first, second],
              selected_clip_id := some c.id } ∧
      first.id = c.id ∧ second.id = c.id ++ "_b" ∧
      first.start_f = c.start_f ∧ first.in_f = c.in_f ∧
      (first.out_f - first.in_f) + (second.out_f - second.in_f) = D ∧
      1 ≤ first.out_f - first.in_f ∧ 1 ≤ second.out_f - second.in_f ∧
      first.start_f + (first.out_f - first.in_f) = second.start_f ∧
      second.start_f + (second.out_f - second.in_f) = c.start_f + D ∧
      first.out_f = second.in_f ∧ second.out_f = c.out_f ∧
      second.media_id = c.media_id ∧ second.track_id = c.track_id ∧
      second.kind = c.kind ∧
      (p.clips.filter (fun d => d.id != c.id)).length + 1 = p.clips.length := by
  have hfind : find_clip p (some c.id) = some c := by
    unfold find_clip
    dsimp only
    rw [if_neg hid]
    exact find_first_by_id p.clips c hmem hnd
  have hdur : clip_duration_frames c = D := by
    unfold clip_duration_frames
    omega
  have hcut : (1 : Int) ⊔ ((clip_duration_frames c - 1) ⊓ off) = off := by
    rw [hdur, min_eq_right hhi, max_eq_right hlo]
  refine ⟨{ c with out_f := c.in_f + off },
          { id := c.id ++ "_b", media_id := c.media_id, track_id := c.track_id,
            start_f := c.start_f + off, in_f := c.in_f + off, out_f := c.out_f,
            kind := c.kind },
          ?_, rfl, rfl, rfl, rfl, ?_, ?_, ?_, ?_, ?_, rfl, rfl, rfl, rfl, rfl,
          filter_ne_id_length p.clips c hmem hnd⟩
  · unfold on_cmd
    dsimp only
    rw [show jget [("type", .str "RAZOR_CUT"), ("clip_id", .str c.id),
          ("cut_offset_f", .num ((off : Int) : ℚ))] "type" .null =
        .str "RAZOR_CUT" from rfl]
    dsimp only
    rw [if_neg (by decide : ¬("RAZOR_CUT" : String) = "SET_PLAYHEAD"),
        if_neg (by decide : ¬("RAZOR_CUT" : String) = "SCREENSHOT"),
        if_neg (by decide : ¬("RAZOR_CUT" : String) = "SELECT_CLIP"),
        if_neg (by decide : ¬("RAZOR_CUT" : String) = "ADD_CLIP"),
        if_neg (by decide : ¬("RAZOR_CUT" : String) = "MOVE_CLIP"),
        if_pos rfl]
    unfold razor_cut_cmd
    dsimp only
    rw [show jget [("type", .str "RAZOR_CUT"), ("clip_id", .str c.id),
          ("cut_offset_f", .num ((off : Int) : ℚ))] "cut_offset_f" (.num 0) =
        .num ((off : Int) : ℚ) from rfl,
        pyInt_intCast]
    dsimp only
    rw [show jvalToOptStr (jget [("type", .str "RAZOR_CUT"), ("clip_id", .str c.id),
          ("cut_offset_f", .num ((off : Int) : ℚ))] "clip_id" .null) =
        some c.id from rfl,
        hfind]
    dsimp only
    rw [hcut]
  · dsimp only
    omega
  · dsimp only
    omega
  · dsimp only
    omega
  · dsimp only
    omega
  · dsimp only
    omega

/-- C3 witness: the §8 scenario — cut the `[0,125)` clip of `pBase` at
offset 50. -/
theorem C3_witness :
    ∃ first second : Clip,
      on_cmd "x" (.msg [("type", .str "RAZOR_CUT"), ("clip_id", .str cVid.id),
                        ("cut_offset_f", .num ((50 : Int) : ℚ))]) pBase =
        .ok { pBase with
              clips := pBase.clips.filter (fun d => d.id != cVid.id) ++
                [first, second],
              selected_clip_id := some cVid.id } ∧
      first.id = cVid.id ∧ second.id = cVid.id ++ "_b" ∧
      first.start_f = cVid.start_f ∧ first.in_f = cVid.in_f ∧
      (first.out_f - first.in_f) + (second.out_f - second.in_f) = 125 ∧
      1 ≤ first.out_f - first.in_f ∧ 1 ≤ second.out_f - second.in_f ∧
      first.start_f + (first.out_f - first.in_f) = second.start_f ∧
      second.start_f + (second.out_f - second.in_f) = cVid.start_f + 125 ∧
      first.out_f = second.in_f ∧ second.out_f = cVid.out_f ∧
      second.media_id = cVid.media_id ∧ second.track_id = cVid.track_id ∧
      second.kind = cVid.kind ∧
      (pBase.clips.filter (fun d => d.id != cVid.id)).length + 1 =
        pBase.clips.length :=
  C3_razor_cut_partition "x" pBase cVid 50 125 (by decide) (by decide)
    (by decide) (by decide) (by decide) (by decide)

/-- A video media item whose probed frame count is 0 (a value the
project JSON interface admits). -/
def mZero : MediaItem :=
  { id := "m0", name := "z.mp4", path := "/z.mp4", kind := "video",
    frames := some 0 }

/-- Project holding only `mZero`. -/
def pZero : Project :=
  { fps := 25, px_per_frame := 2, playhead_f := 0,
    selected_clip_id := none, media := [mZero], clips := [] }

/-- C4 counterexample: adding the video media with known frameCount 0
creates a clip with `outFrame = 1` (the code takes `max(1, F)` before
capping), not `min(F, 5*fps) = 0` as the claim states. -/
theorem C4_counterexample :
    (find_media pZero "m0" = some mZero ∧ mZero.kind = "video" ∧
      mZero.frames = some 0) ∧
    on_cmd "n1" (.msg [("type", .str "ADD_CLIP"), ("media_id", .str "m0"),
                       ("track_id", .str "V1"), ("start_f", .num 0)]) pZero =
      .ok { pZero with
            clips := [{ id := "n1", media_id := "m0", track_id := "V1",
                        start_f := 0, in_f := 0, out_f := 1, kind := "video" }],
            selected_clip_id := some "n1" } ∧
    (1 : Int) ≠ min 0 (5 * 25) := by
  refine ⟨by decide, ?_, by decide⟩
  have h5 : ((25 : ℚ) * 5) = ((125 : Int) : ℚ) := by norm_num
  simp only [on_cmd, add_clip_cmd, jget, find_media_j, find_media, pyInt,
    pyTrunc, strHead, pZero, mZero, h5, pyRound_intCast]
  decide

/-- C4 (amended): an accepted ADD_CLIP (media resolves, track category
compatible) appends a clip with `inFrame = 0` and
`outFrame = min(max(1, F), round(5*fps))` for video media with known
frameCount F (`round` = Python banker's rounding; this equals
`min(F, 5*fps)` whenever `F ≥ 1` and `5*fps` is an integer),
`outFrame = max(1, F)` for non-video media with known F, and
`outFrame = round(2*fps)` when no frame count is known; the new clip
becomes the selected clip. -/
theorem C4_add_clip_defaults (fresh : String) (p : Project) (mid : String)
    (m : MediaItem) (t : String) (s : Int)
    (hm : find_media p mid = some m)
    (hg1 : (strHead t 'A' && m.kind != "audio") = false)
    (hg2 : (strHead t 'V' && m.kind == "audio") = false) :
    on_cmd fresh (.msg [("type", .str "ADD_CLIP"), ("media_id", .str mid),
                        ("track_id", .str t),
                        ("start_f", .num ((s : Int) : ℚ))]) p =
      .ok { p with
            clips := p.clips ++
              [{ id := fresh, media_id := m.id, track_id := t,
                 start_f := max 0 s, in_f := 0,
                 out_f :=
                   match m.frames with
                   | some fr =>
                     if m.kind = "video"
                       then min (max 1 fr) (pyRound (p.fps * 5))
                       else max 1 fr
                   | none => pyRound (p.fps * 2),
                 kind := m.kind }],
            selected_clip_id := some fresh } := by
  unfold on_cmd
  dsimp only
  rw [show jget [("type", .str "ADD_CLIP"), ("media_id", .str mid),
        ("track_id", .str t), ("start_f", .num ((s : Int) : ℚ))] "type" .null =
      .str "ADD_CLIP" from rfl]
  dsimp only
  rw [if_neg (by decide : ¬("ADD_CLIP" : String) = "SET_PLAYHEAD"),
      if_neg (by decide : ¬("ADD_CLIP" : String) = "SCREENSHOT"),
      if_neg (by decide : ¬("ADD_CLIP" : String) = "SELECT_CLIP"),
      if_pos rfl]
  unfold add_clip_cmd
  dsimp only
  rw [show jget [("type", .str "ADD_CLIP"), ("media_id", .str mid),
        ("track_id", .str t), ("start_f", .num ((s : Int) : ℚ))] "start_f"
        (.num 0) = .num ((s : Int) : ℚ) from rfl,
      pyInt_intCast]
  dsimp only
  have hfmj : find_media_j p (jget [("type", .str "ADD_CLIP"),
      ("media_id", .str mid), ("track_id", .str t),
      ("start_f", .num ((s : Int) : ℚ))] "media_id" .null) = some m := by
    rw [show jget [("type", .str "ADD_CLIP"), ("media_id", .str mid),
          ("track_id", .str t), ("start_f", .num ((s : Int) : ℚ))] "media_id"
          .null = .str mid from rfl]
    exact hm
  rw [hfmj]
  dsimp only
  rw [show jget [("type", .str "ADD_CLIP"), ("media_id", .str mid),
        ("track_id", .str t), ("start_f", .num ((s : Int) : ℚ))] "track_id"
        (.str "V1") = .str t from rfl]
  dsimp only
  rw [if_neg (by simp [hg1]), if_neg (by simp [hg2])]

/-- C4 witness: adding `mVid` (video, 250 frames) to "V1" of `pBase`
yields `inFrame 0`, `outFrame 125 = min(250, 5*25)`, selected. -/
theorem C4_witness :
    on_cmd "n1" (.msg [("type", .str "ADD_CLIP"), ("media_id", .str "m1"),
                       ("track_id", .str "V1"),
                       ("start_f", .num ((7 : Int) : ℚ))]) pBase =
      .ok { pBase with
            clips := pBase.clips ++
              [{ id := "n1", media_id := mVid.id, track_id := "V1",
                 start_f := max 0 7, in_f := 0,
                 out_f :=
                   match mVid.frames with
                   | some fr =>
                     if mVid.kind = "video"
                       then min (max 1 fr) (pyRound (pBase.fps * 5))
                       else max 1 fr
                   | none => pyRound (pBase.fps * 2),
                 kind := mVid.kind }],
            selected_clip_id := some "n1" } ∧
    (match mVid.frames with
     | some fr =>
       if mVid.kind = "video"
         then min (max 1 fr) (pyRound (pBase.fps * 5))
         else max 1 fr
     | none => pyRound (pBase.fps * 2)) = 125 :=
  ⟨C4_add_clip_defaults "n1" pBase "m1" mVid "V1" 7 (by decide) (by decide)
     (by decide),
   by
     have h5 : ((25 : ℚ) * 5) = ((125 : Int) : ℚ) := by norm_num
     simp only [mVid, pBase, h5, pyRound_intCast]
     decide⟩

/-- A track id starting with 'V' does not start with 'A'. -/
theorem strHead_V_not_A {t : String} (h : strHead t 'V' = true) :
    strHead t 'A' = false := by
  unfold strHead at h ⊢
  cases hd : t.data with
  | nil =>
    rw [hd] at h
  | cons d rest =>
    rw [hd] at h
    dsimp only at h ⊢
    rw [beq_iff_eq] at h
    subst h
    rfl

/-- C5: ADD_CLIP of video/image media onto an "A…" track, or of audio
media onto a "V…" track, is rejected: the whole project (in particular
the clip list) is returned unchanged. -/
theorem C5_add_clip_kind_mismatch (fresh : String) (p : Project) (mid : String)
    (m : MediaItem) (t : String) (s : Int)
    (hm : find_media p mid = some m)
    (hrej : ((m.kind = "video" ∨ m.kind = "image") ∧ strHead t 'A' = true) ∨
            (m.kind = "audio" ∧ strHead t 'V' = true)) :
    on_cmd fresh (.msg [("type", .str "ADD_CLIP"), ("media_id", .str mid),
                        ("track_id", .str t),
                        ("start_f", .num ((s : Int) : ℚ))]) p = .ok p := by
  have hred : on_cmd fresh (.msg [("type", .str "ADD_CLIP"),
      ("media_id", .str mid), ("track_id", .str t),
      ("start_f", .num ((s : Int) : ℚ))]) p =
      add_clip_cmd fresh [("type", .str "ADD_CLIP"), ("media_id", .str mid),
        ("track_id", .str t), ("start_f", .num ((s : Int) : ℚ))] p := rfl
  rw [hred]
  unfold add_clip_cmd
  dsimp only
  rw [show jget [("type", .str "ADD_CLIP"), ("media_id", .str mid),
        ("track_id", .str t), ("start_f", .num ((s : Int) : ℚ))] "start_f"
        (.num 0) = .num ((s : Int) : ℚ) from rfl,
      pyInt_intCast]
  dsimp only
  have hfmj : find_media_j p (jget [("type", .str "ADD_CLIP"),
      ("media_id", .str mid), ("track_id", .str t),
      ("start_f", .num ((s : Int) : ℚ))] "media_id" .null) = some m := by
    rw [show jget [("type", .str "ADD_CLIP"), ("media_id", .str mid),
          ("track_id", .str t), ("start_f", .num ((s : Int) : ℚ))] "media_id"
          .null = .str mid from rfl]
    exact hm
  rw [hfmj]
  dsimp only
  rw [show jget [("type", .str "ADD_CLIP"), ("media_id", .str mid),
        ("track_id", .str t), ("start_f", .num ((s : Int) : ℚ))] "track_id"
        (.str "V1") = .str t from rfl]
  dsimp only
  rcases hrej with ⟨hk, hA⟩ | ⟨hk, hV⟩
  · have hg : (strHead t 'A' && m.kind != "audio") = true := by
      rcases hk with hk | hk <;> simp [hA, hk]
    rw [if_pos hg]
  · have hA : strHead t 'A' = false := strHead_V_not_A hV
    rw [if_neg (by simp [hA]), if_pos (by simp [hV, hk])]

/-- C5 witness: adding the video media "m1" to audio track "A1" of
`pBase`, and the audio media "m2" to video track "V2", both leave the
project unchanged. -/
theorem C5_witness :
    on_cmd "n1" (.msg [("type", .str "ADD_CLIP"), ("media_id", .str "m1"),
                       ("track_id", .str "A1"),
                       ("start_f", .num ((0 : Int) : ℚ))]) pBase = .ok pBase ∧
    on_cmd "n1" (.msg [("type", .str "ADD_CLIP"), ("media_id", .str "m2"),
                       ("track_id", .str "V2"),
                       ("start_f", .num ((0 : Int) : ℚ))]) pBase = .ok pBase :=
  ⟨C5_add_clip_kind_mismatch "n1" pBase "m1" mVid "A1" 0 (by decide)
     (Or.inl ⟨Or.inl (by decide), by decide⟩),
   C5_add_clip_kind_mismatch "n1" pBase "m2" mAud "V2" 0 (by decide)
     (Or.inr ⟨by decide, by decide⟩)⟩

/-- A string starting with `a` does not start with a different `b`. -/
theorem strHead_of_ne {t : String} {a b : Char} (h : strHead t a = true)
    (hne : a ≠ b) : strHead t b = false := by
  unfold strHead at h ⊢
  cases hd : t.data with
  | nil =>
    rw [hd] at h
  | cons d rest =>
    rw [hd] at h
    dsimp only at h ⊢
    rw [beq_iff_eq] at h
    subst h
    simp [hne]

/-- C6: MOVE_CLIP always updates the first matching clip's startFrame to
the requested start clamped to ≥ 0; the track is updated exactly when
the target track's category matches the clip's kind ("V…" for
video/image, "A…" for audio), and kept unchanged otherwise. -/
theorem C6_move_clip_track_guard (fresh : String) (p : Project) (c : Clip)
    (pre post : List Clip) (s : Int) (t : String)
    (hsplit : p.clips = pre ++ c :: post)
    (hfirst : ∀ d ∈ pre, d.id ≠ c.id)
    (ht : t ≠ "") :
    (¬ ((strHead t 'V' = true ∧ (c.kind = "video" ∨ c.kind = "image")) ∨
        (strHead t 'A' = true ∧ c.kind = "audio")) →
      on_cmd fresh (.msg [("type", .str "MOVE_CLIP"), ("clip_id", .str c.id),
                          ("start_f", .num ((s : Int) : ℚ)),
                          ("track_id", .str t)]) p =
        .ok { p with clips := pre ++ { c with start_f := max 0 s } :: post }) ∧
    (((strHead t 'V' = true ∧ (c.kind = "video" ∨ c.kind = "image")) ∨
      (strHead t 'A' = true ∧ c.kind = "audio")) →
      on_cmd fresh (.msg [("type", .str "MOVE_CLIP"), ("clip_id", .str c.id),
                          ("start_f", .num ((s : Int) : ℚ)),
                          ("track_id", .str t)]) p =
        .ok { p with
              clips := pre ++ { c with start_f := max 0 s, track_id := t }
                :: post }) := by
  have hred : on_cmd fresh (.msg [("type", .str "MOVE_CLIP"),
      ("clip_id", .str c.id), ("start_f", .num ((s : Int) : ℚ)),
      ("track_id", .str t)]) p =
      move_clip_cmd [("type", .str "MOVE_CLIP"), ("clip_id", .str c.id),
        ("start_f", .num ((s : Int) : ℚ)), ("track_id", .str t)] p := rfl
  have hmove : move_clip_cmd [("type", .str "MOVE_CLIP"),
      ("clip_id", .str c.id), ("start_f", .num ((s : Int) : ℚ)),
      ("track_id", .str t)] p =
      .ok { p with
            clips := pre ++ move_apply c (max 0 s) (.str t) :: post } := by
    unfold move_clip_cmd
    dsimp only
    rw [show jget [("type", .str "MOVE_CLIP"), ("clip_id", .str c.id),
          ("start_f", .num ((s : Int) : ℚ)), ("track_id", .str t)] "start_f"
          (.num 0) = .num ((s : Int) : ℚ) from rfl,
        pyInt_intCast]
    dsimp only
    rw [show jget [("type", .str "MOVE_CLIP"), ("clip_id", .str c.id),
          ("start_f", .num ((s : Int) : ℚ)), ("track_id", .str t)] "clip_id"
          .null = .str c.id from rfl]
    dsimp only
    rw [show jget [("type", .str "MOVE_CLIP"), ("clip_id", .str c.id),
          ("start_f", .num ((s : Int) : ℚ)), ("track_id", .str t)] "track_id"
          .null = .str t from rfl,
        hsplit, move_update_split c.id (max 0 s) (.str t) pre c post hfirst rfl]
  constructor
  · intro hn
    rw [hred, hmove]
    have h1 : (strHead t 'V' && (c.kind == "video" || c.kind == "image")) =
        false := by
      cases hv : strHead t 'V'
      · simp
      · have hk1 : c.kind ≠ "video" := fun hk => hn (Or.inl ⟨hv, Or.inl hk⟩)
        have hk2 : c.kind ≠ "image" := fun hk => hn (Or.inl ⟨hv, Or.inr hk⟩)
        simp [hk1, hk2]
    have h2 : (strHead t 'A' && (c.kind == "audio")) = false := by
      cases ha : strHead t 'A'
      · simp
      · have hk3 : c.kind ≠ "audio" := fun hk => hn (Or.inr ⟨ha, hk⟩)
        simp [hk3]
    unfold move_apply
    dsimp only
    rw [if_pos ht, if_neg (by simp [h1]), if_neg (by simp [h2])]
  · intro hc
    rw [hred, hmove]
    unfold move_apply
    dsimp only
    rw [if_pos ht]
    rcases hc with ⟨hv, hk⟩ | ⟨ha, hk⟩
    · rw [if_pos (by rcases hk with hk | hk <;> simp [hv, hk])]
    · have hVf : strHead t 'V' = false :=
        strHead_of_ne ha (by decide)
      rw [if_neg (by simp [hVf]), if_pos (by simp [ha, hk])]

/-- C6 witness: moving the video clip of `pBase` to the incompatible
audio track "A1" with requested start -5 clamps the start to 0 and
leaves the track "V1" unchanged. -/
theorem C6_witness :
    on_cmd "x" (.msg [("type", .str "MOVE_CLIP"), ("clip_id", .str cVid.id),
                      ("start_f", .num (((-5) : Int) : ℚ)),
                      ("track_id", .str "A1")]) pBase =
      .ok { pBase with clips := [{ cVid with start_f := max 0 (-5) }] } :=
  (C6_move_clip_track_guard "x" pBase cVid [] [] (-5) "A1" rfl (by simp)
    (by decide)).1 (by decide)

/-- The sort-head is none exactly on the empty candidate list. -/
theorem top_candidate_none_iff (l : List Clip) :
    top_candidate l = none ↔ l = [] := by
  induction l with
  | nil => simp [top_candidate]
  | cons a tl ih =>
    simp only [top_candidate]
    constructor
    · intro h
      rcases htl : top_candidate tl with _ | d <;> rw [htl] at h <;>
        dsimp only at h
      · cases h
      · split at h <;> cases h
    · intro h
      cases h

/-- The sort-head is the earliest candidate of maximal track priority:
everything before it is strictly lower, everything after is no higher. -/
theorem top_candidate_spec (l : List Clip) (c : Clip)
    (h : top_candidate l = some c) :
    ∃ l1 l2, l = l1 ++ c :: l2 ∧
      (∀ d ∈ l1, track_priority d.track_id < track_priority c.track_id) ∧
      (∀ d ∈ l2, track_priority d.track_id ≤ track_priority c.track_id) := by
  induction l generalizing c with
  | nil => cases h
  | cons a tl ih =>
    simp only [top_candidate] at h
    rcases htl : top_candidate tl with _ | d
    · rw [htl] at h
      dsimp only at h
      cases h
      have htln : tl = [] := (top_candidate_none_iff tl).mp htl
      subst htln
      exact ⟨[], [], rfl, by simp, by simp⟩
    · rw [htl] at h
      dsimp only at h
      by_cases hlt : track_priority a.track_id < track_priority d.track_id
      · rw [if_pos hlt] at h
        cases h
        obtain ⟨l1, l2, heq, hl1, hl2⟩ := ih c htl
        refine ⟨a :: l1, l2, by rw [heq, List.cons_append], ?_, hl2⟩
        intro x hx
        rcases List.mem_cons.mp hx with rfl | hx
        · exact hlt
        · exact hl1 x hx
      · rw [if_neg hlt] at h
        cases h
        have hda : track_priority d.track_id ≤ track_priority a.track_id :=
          le_of_not_lt hlt
        obtain ⟨l1, l2, heq, hl1, hl2⟩ := ih d htl
        refine ⟨[], tl, rfl, by simp, ?_⟩
        intro x hx
        rw [heq] at hx
        rcases List.mem_append.mp hx with hx | hx
        · exact le_trans (le_of_lt (hl1 x hx)) hda
        · rcases List.mem_cons.mp hx with rfl | hx
          · exact hda
          · exact le_trans (hl2 x hx) hda

/-- C7: the preview resolver considers exactly the video/image clips
covering the playhead (audio clips are never candidates); with no
candidate there is no visible frame; otherwise the displayed clip is a
candidate of maximal track priority, the earliest such in clip order
(everything before it in the candidate list is strictly lower);
priorities order the video tracks "V3" > "V2" > "V1" > any non-"V"
track. -/
theorem C7_preview_selection (p : Project) :
    (preview_top p = none ↔ preview_candidates p = []) ∧
    (∀ c ∈ p.clips, c.kind = "audio" → c ∉ preview_candidates p) ∧
    (∀ c, preview_top p = some c →
      c ∈ p.clips ∧ (c.kind = "video" ∨ c.kind = "image") ∧
      clip_covers_frame c p.playhead_f = true ∧
      ∃ l1 l2, preview_candidates p = l1 ++ c :: l2 ∧
        (∀ d ∈ l1, track_priority d.track_id < track_priority c.track_id) ∧
        (∀ d ∈ l2, track_priority d.track_id ≤ track_priority c.track_id)) ∧
    track_priority "V1" = 1 ∧ track_priority "V2" = 2 ∧
    track_priority "V3" = 3 ∧ track_priority "A1" = -999 := by
  refine ⟨top_candidate_none_iff _, ?_, ?_, by decide, by decide, by decide,
    by decide⟩
  · intro c _ hk hmem
    have hp := (List.mem_filter.mp hmem).2
    rw [hk] at hp
    simp at hp
  · intro c h
    obtain ⟨l1, l2, heq, hl1, hl2⟩ := top_candidate_spec _ c h
    have hmem : c ∈ preview_candidates p := by
      rw [heq]
      exact List.mem_append_right _ (List.mem_cons_self _ _)
    obtain ⟨hclip, hpred⟩ := List.mem_filter.mp hmem
    simp only [Bool.and_eq_true, Bool.or_eq_true, beq_iff_eq] at hpred
    exact ⟨hclip, hpred.1, hpred.2, l1, l2, heq, hl1, hl2⟩

/-- Clip on track "V1" overlapping the playhead. -/
def cV1 : Clip :=
  { id := "a1", media_id := "m1", track_id := "V1",
    start_f := 0, in_f := 0, out_f := 100, kind := "video" }

/-- Clip on track "V2" overlapping the same range. -/
def cV2 : Clip :=
  { id := "a2", media_id := "m1", track_id := "V2",
    start_f := 0, in_f := 0, out_f := 100, kind := "video" }

/-- Project with the two overlapping clips and the playhead inside both. -/
def pOverlap : Project :=
  { fps := 25, px_per_frame := 2, playhead_f := 10,
    selected_clip_id := none, media := [mVid], clips := [cV1, cV2] }

/-- C7 witness: over `pOverlap` the resolver picks the "V2" clip, a
maximal-priority candidate covering the playhead. -/
theorem C7_witness :
    cV2 ∈ pOverlap.clips ∧ (cV2.kind = "video" ∨ cV2.kind = "image") ∧
    clip_covers_frame cV2 pOverlap.playhead_f = true ∧
    ∃ l1 l2, preview_candidates pOverlap = l1 ++ cV2 :: l2 ∧
      (∀ d ∈ l1, track_priority d.track_id < track_priority cV2.track_id) ∧
      (∀ d ∈ l2, track_priority d.track_id ≤ track_priority cV2.track_id) :=
  (C7_preview_selection pOverlap).2.2.1 cV2 (by decide)
